import Mathlib

/-!
Verification development for the blk-ecs language-server core
(`src/server/src/server.ts`, `src/server/src/blkBlock.ts`).

The TypeScript source is shallowly embedded: each TS function relevant to the
checked claims is translated into an executable Lean definition.  JS strings
are modelled as Lean `String` (with custom helpers mirroring the exact JS
string primitives used by the source); JS `Map` is modelled as an
insertion-ordered association list; JS `number` positions/columns are `Int`;
a thrown JS `TypeError` is modelled with `Except String`.
-/

/-! ## JS string primitives (as used by the source) -/

/-- JS `str.split(sep)` for a single-character separator. -/
def splitCharAux (sep : Char) : List Char → List Char → List String
  | [], acc => [String.mk acc.reverse]
  | c :: cs, acc =>
    if c = sep then String.mk acc.reverse :: splitCharAux sep cs []
    else splitCharAux sep cs (c :: acc)

def jsSplit (s : String) (sep : Char) : List String :=
  splitCharAux sep s.data []

/-- JS `str.length` (code units; all inputs here are ASCII). -/
def jsLen (s : String) : Int :=
  (s.data.length : Int)

/-- JS `str.startsWith(pre)`. -/
def jsStartsWith (s pre : String) : Bool :=
  pre.data.isPrefixOf s.data

/-- JS `str.trim()`. -/
def jsTrim (s : String) : String :=
  String.mk (((s.data.dropWhile Char.isWhitespace).reverse.dropWhile Char.isWhitespace).reverse)

/-- JS `str.indexOf(c)` for a single character: index of first occurrence, `-1` if absent. -/
def jsIndexOf (s : String) (c : Char) : Int :=
  match s.data.findIdx? (· = c) with
  | some i => (i : Int)
  | none => -1

/-- `removeQuotes` (server.ts:648-654): strips one leading and one trailing
double quote, each independently, via `substr`. -/
def removeQuotes (str : String) : String :=
  let str := if jsStartsWith str "\"" then String.mk (str.data.drop 1) else str
  if str.data.getLast? = some '"' then String.mk str.data.dropLast else str

/-- `splitAndRemoveQuotes` (server.ts:646), default delimiter `"+"`. -/
def splitAndRemoveQuotes (str : String) : List String :=
  (jsSplit str '+').map removeQuotes

/-! ## Positions and locations (blkBlock.ts) -/

/-- `BlkPosition` (blkBlock.ts:14-18): 1-based line/column, 0-based offset. -/
structure BlkPosition where
  offset : Int
  line : Int
  column : Int
deriving DecidableEq, Repr

/-- `BlkPosition.create` (blkBlock.ts:21-23). -/
def BlkPosition.create (line : Int := 1) (column : Int := 1) (offset : Int := 0) : BlkPosition :=
  { offset := offset, line := line, column := column }

/-- `BlkPosition.less` (blkBlock.ts:27-29). -/
def BlkPosition.less (a b : BlkPosition) : Bool :=
  a.line < b.line ∨ (a.line = b.line ∧ a.column < b.column)

/-- `BlkLocation` (blkBlock.ts:32-35); the source field `end` is called `stop` here
(`end` is a Lean keyword). -/
structure BlkLocation where
  start : BlkPosition
  stop : BlkPosition
deriving DecidableEq, Repr

/-- `BlkLocation.create` (blkBlock.ts:40-45): copies the given positions (or zero). -/
def BlkLocation.create (start : Option BlkPosition := none) (stop : Option BlkPosition := none) :
    BlkLocation :=
  { start := match start with
      | some s => BlkPosition.create s.line s.column s.offset
      | none => BlkPosition.create
    stop := match stop with
      | some e => BlkPosition.create e.line e.column e.offset
      | none => BlkPosition.create }

/-- `BlkLocation.clone` (blkBlock.ts:37-39). -/
def BlkLocation.clone (loc : BlkLocation) : BlkLocation :=
  BlkLocation.create (some loc.start) (some loc.stop)

/-- An editor protocol position: 0-based line/character. -/
structure Position where
  line : Int
  character : Int
deriving DecidableEq, Repr

/-- `BlkPosition.toPosition` (blkBlock.ts:24-26). -/
def BlkPosition.toPosition (pos : BlkPosition) : Position :=
  { line := pos.line - 1, character := pos.column - 1 }

/-- An editor protocol range (0-based positions). -/
structure Range where
  start : Position
  stop : Position
deriving DecidableEq, Repr

/-- `BlkLocation.toRange` (blkBlock.ts:55). -/
def BlkLocation.toRange (loc : BlkLocation) : Range :=
  { start := loc.start.toPosition, stop := loc.stop.toPosition }

/-- `BlkLocation.isPosInLocation` (blkBlock.ts:46-54), translated clause by clause. -/
def isPosInLocation (location : BlkLocation) (position : Position) : Bool :=
  if position.line < location.start.line - 1 ∨
      (position.line = location.start.line - 1 ∧
        position.character < location.start.column - 1) then
    false
  else if position.line > location.stop.line - 1 ∨
      (position.line = location.stop.line - 1 ∧
        position.character > location.stop.column - 1) then
    false
  else
    true

/-- Lexicographic order on (line, character) pairs, the specification-side
notion used by claim C10. -/
def lexLe (a b : Int × Int) : Prop :=
  a.1 < b.1 ∨ (a.1 = b.1 ∧ a.2 ≤ b.2)

/-! ## Document tree model (blkBlock.ts interfaces) -/

/-- Field-name constants (blkBlock.ts:5-12). -/
def extendsField : String := "_extends"

def templateField : String := "_template"

def overrideField : String := "_override"

def importField : String := "import"

def importSceneField : String := "scene"

def groupBlock : String := "_group"

def entityWithTemplateName : String := "entity"

/-- `BlkIncludes` (blkBlock.ts:69-72). -/
structure BlkIncludes where
  location : BlkLocation
  value : String
deriving DecidableEq, Repr

/-- `BlkComment` (blkBlock.ts:58-63); `format` is the raw format tag string. -/
structure BlkComment where
  indent : BlkLocation
  location : BlkLocation
  value : String
  format : String
deriving DecidableEq, Repr

/-- `BlkEmptyLine` (blkBlock.ts:65-67). -/
structure BlkEmptyLine where
  location : BlkLocation
deriving DecidableEq, Repr

/-- `BlkParam` (blkBlock.ts:74-82).  The raw parse form carries
`value : [name, type, value]`; `cleanupBlkParam` fills `_name`/`_type`/`_value`
and deletes `value` (modelled as `none`; reading `value.length` off a deleted
field is a JS `TypeError`). -/
structure BlkParam where
  indent : BlkLocation
  location : BlkLocation
  value : Option (List String)
  _name : String := ""
  _type : String := ""
  _value : String := ""
deriving DecidableEq, Repr

/-- `BlkBlock` (blkBlock.ts:97-105); `comments`/`emptyLines` are deleted
(set to `none`) by `cleanupBlkBlock`. -/
inductive BlkBlock where
  | mk (name : String) (location : BlkLocation) (blocks : List BlkBlock)
      (params : List BlkParam) (includes : List BlkIncludes)
      (comments : Option (List BlkComment)) (emptyLines : Option (List BlkEmptyLine))
deriving Repr

def BlkBlock.name : BlkBlock → String
  | .mk n _ _ _ _ _ _ => n

def BlkBlock.location : BlkBlock → BlkLocation
  | .mk _ l _ _ _ _ _ => l

def BlkBlock.blocks : BlkBlock → List BlkBlock
  | .mk _ _ b _ _ _ _ => b

def BlkBlock.params : BlkBlock → List BlkParam
  | .mk _ _ _ p _ _ _ => p

def BlkBlock.includes : BlkBlock → List BlkIncludes
  | .mk _ _ _ _ i _ _ => i

def BlkBlock.comments : BlkBlock → Option (List BlkComment)
  | .mk _ _ _ _ _ c _ => c

def BlkBlock.emptyLines : BlkBlock → Option (List BlkEmptyLine)
  | .mk _ _ _ _ _ _ e => e

/-! ## JS `Map`/`Set` model: insertion-ordered association lists -/

abbrev JSMap (α β : Type) : Type := List (α × β)

def mapGet? [DecidableEq α] : JSMap α β → α → Option β
  | [], _ => none
  | (k', v) :: rest, k => if k' = k then some v else mapGet? rest k

def mapHas [DecidableEq α] (m : JSMap α β) (k : α) : Bool :=
  (mapGet? m k).isSome

def mapGetD [DecidableEq α] (m : JSMap α β) (k : α) (d : β) : β :=
  (mapGet? m k).getD d

/-- JS `Map.set`: replaces the value in place when the key exists, else appends. -/
def mapSet [DecidableEq α] : JSMap α β → α → β → JSMap α β
  | [], k, v => [(k, v)]
  | (k', v') :: rest, k, v =>
    if k' = k then (k', v) :: rest else (k', v') :: mapSet rest k v

/-- JS `Map.delete`: removes the key's entry (keys are unique in a JS map). -/
def mapDelete [DecidableEq α] : JSMap α β → α → JSMap α β
  | [], _ => []
  | (k', v) :: rest, k =>
    if k' = k then mapDelete rest k else (k', v) :: mapDelete rest k

/-! ## Completion items -/

inductive CompletionItemKind where
  | field
  | strct
deriving DecidableEq, Repr

structure CompletionItem where
  label : String
  kind : CompletionItemKind
deriving DecidableEq, Repr

/-- The item `addCompletion` (server.ts:367-373) appends for one call;
`none` when the call returns early (empty name). -/
def completionItem? (name type : String) (kind : CompletionItemKind) : Option CompletionItem :=
  if jsLen name = 0 then none
  else some { label := if jsLen type = 0 then name else name ++ ":" ++ type, kind := kind }

/-! ## Server state (module-level maps, server.ts:298-311) -/

structure ServerState where
  workspaces : List String
  openFiles : List String
  fileContents : JSMap String String
  files : JSMap String (Option BlkBlock)
  extendsInFiles : JSMap String (JSMap String Nat)
  entitiesInScenes : JSMap String (JSMap String Nat)
  templatesInFiles : JSMap String (JSMap String Nat)
  usagesInvalid : Bool
  usagesMap : JSMap String Nat
  completion : JSMap String (List CompletionItem)
  completionCacheInvalid : Bool
  completionCache : List CompletionItem

/-- The initial module state: empty maps, both invalidation flags `true`. -/
def ServerState.initial : ServerState :=
  { workspaces := [], openFiles := [], fileContents := [], files := []
    extendsInFiles := [], entitiesInScenes := [], templatesInFiles := []
    usagesInvalid := true, usagesMap := []
    completion := [], completionCacheInvalid := true, completionCache := [] }

/-- `purgeFile` (server.ts:49-58). -/
def purgeFile (fsPath : String) (st : ServerState) : ServerState :=
  { st with
    fileContents := mapDelete st.fileContents fsPath
    files := mapDelete st.files fsPath
    usagesInvalid := true
    extendsInFiles := mapDelete st.extendsInFiles fsPath
    entitiesInScenes := mapDelete st.entitiesInScenes fsPath
    templatesInFiles := mapDelete st.templatesInFiles fsPath
    completionCacheInvalid := true
    completion := mapDelete st.completion fsPath }

/-! ## Normalizer (cleanupBlkBlock / cleanupBlkParam / processFile) -/

/-- The JS fault raised by `param.value.length` when `value` was deleted
(`delete param.value`, server.ts:396) or stored as `null` (synthetic params). -/
def typeErrorMsg : String := "TypeError: cannot read length of a deleted value"

/-- Increment of `indent.end.column` / `indent.end.offset` used for quoted names. -/
def bumpStop (loc : BlkLocation) : BlkLocation :=
  { loc with stop := { loc.stop with column := loc.stop.column + 1, offset := loc.stop.offset + 1 } }

/-- `cleanupBlkParam` (server.ts:388-397). -/
def cleanupBlkParam (param : BlkParam) (_depth : Nat) : Except String BlkParam :=
  match param.value with
  | none => .error typeErrorMsg
  | some v =>
    .ok { indent :=
            if 0 < v.length ∧ jsStartsWith (v.getD 0 "") "\"" then bumpStop param.indent
            else param.indent
          location := param.location
          value := none
          _name := if 0 < v.length then removeQuotes (v.getD 0 "") else ""
          _type := if 1 < v.length then v.getD 1 "" else ""
          _value := if 2 < v.length then v.getD 2 "" else "" }

def cleanupParams : List BlkParam → Nat → Except String (List BlkParam)
  | [], _ => .ok []
  | p :: ps, depth =>
    match cleanupBlkParam p depth with
    | .error e => .error e
    | .ok p2 =>
      match cleanupParams ps depth with
      | .error e => .error e
      | .ok ps2 => .ok (p2 :: ps2)

mutual
/-- `cleanupBlkBlock` (server.ts:375-386): deletes `comments`/`emptyLines`,
recurses into child blocks with `depth+1`, then cleans own params. -/
def cleanupBlkBlock : BlkBlock → Nat → Except String BlkBlock
  | .mk name loc blocks params includes _ _, depth =>
    match cleanupBlocks blocks (depth + 1) with
    | .error e => .error e
    | .ok blocks2 =>
      match cleanupParams params depth with
      | .error e => .error e
      | .ok params2 => .ok (.mk name loc blocks2 params2 includes none none)

def cleanupBlocks : List BlkBlock → Nat → Except String (List BlkBlock)
  | [], _ => .ok []
  | b :: bs, depth =>
    match cleanupBlkBlock b depth with
    | .error e => .error e
    | .ok b2 =>
      match cleanupBlocks bs depth with
      | .error e => .error e
      | .ok bs2 => .ok (b2 :: bs2)
end

def exceptOk : Except ε α → Bool
  | .ok _ => true
  | .error _ => false

/-- The new param built from a `_group` child's own param (server.ts:424-439). -/
def groupParamToParam (childParam : BlkParam) : BlkParam :=
  let ind := BlkLocation.clone childParam.indent
  let ind := if jsStartsWith childParam._name "\"" then bumpStop ind else ind
  { indent := ind, location := childParam.location, value := none
    _name := childParam._name, _type := childParam._type, _value := childParam._value }

/-- The synthetic param built from a child block's name by splitting on `:` and
trimming (server.ts:440-456 for `_group` children; server.ts:457-473 is the
identical construction for ordinary child blocks). -/
def childBlockToParam (child : BlkBlock) : BlkParam :=
  let parts := (jsSplit (removeQuotes child.name) ':').map jsTrim
  let ind := BlkLocation.create (some child.location.start) (some child.location.start)
  let ind := if jsStartsWith child.name "\"" then bumpStop ind else ind
  { indent := ind, location := child.location, value := none
    _name := if 0 < parts.length then parts.getD 0 "" else ""
    _type := if 1 < parts.length then parts.getD 1 "" else ""
    _value := "" }

/-- The params appended to the parent for one child block
(`_group` children are hoisted; others become one synthetic param).
Note the source never removes the child from `blk.blocks`. -/
def childSyntheticParams (child : BlkBlock) : List BlkParam :=
  if child.name = groupBlock then
    child.params.map groupParamToParam ++ child.blocks.map childBlockToParam
  else
    [childBlockToParam child]

def blockSyntheticParams (blk : BlkBlock) : List BlkParam :=
  (blk.blocks.map childSyntheticParams).flatten

/-- The per-top-level-block body of `processFile`'s main loop
(server.ts:421-490): appends synthetic params and collects the completion
items in their `addCompletion` call order (child synthetics, block name,
then every param of the grown list). -/
def processBlock (blk : BlkBlock) : BlkBlock × List CompletionItem :=
  let news := blockSyntheticParams blk
  let childItems := news.filterMap (fun p => completionItem? p._name p._type .field)
  let params2 := blk.params ++ news
  let paramItems := params2.filterMap (fun p => completionItem? p._name p._type .field)
  (BlkBlock.mk blk.name blk.location blk.blocks params2 blk.includes blk.comments blk.emptyLines,
    childItems ++ (completionItem? blk.name "" .strct).toList ++ paramItems)

/-- `_extends` reference counting over a block's params (server.ts:477-483). -/
def countExtendsParams (params : List BlkParam) (m : JSMap String Nat) : JSMap String Nat :=
  params.foldl
    (fun m p =>
      if p._name = extendsField ∧ p._type = "t" ∧ 0 < jsLen p._value then
        let parentName := removeQuotes p._value
        mapSet m parentName (if mapHas m parentName then mapGetD m parentName 0 + 1 else 1)
      else m)
    m

/-- `entity` `_template` counting (server.ts:485-489). -/
def countEntityTemplates (blk : BlkBlock) (m : JSMap String Nat) : JSMap String Nat :=
  if blk.name = entityWithTemplateName then
    blk.params.foldl
      (fun m p =>
        if p._name = templateField ∧ p._type = "t" ∧ 0 < jsLen p._value then
          (splitAndRemoveQuotes p._value).foldl
            (fun m partName =>
              mapSet m partName (if mapHas m partName then mapGetD m partName 0 + 1 else 1))
            m
        else m)
      m
  else m

/-- Inner `j` loop of the duplicate-template pair count (server.ts:416-420). -/
def countDupsInner (b : BlkBlock) (rest : List BlkBlock) (m : JSMap String Nat) :
    JSMap String Nat :=
  rest.foldl
    (fun m b2 =>
      if b.name ≠ entityWithTemplateName ∧ b.name = b2.name then
        mapSet m b.name (mapGetD m b.name 0 + 1)
      else m)
    m

/-- The `i < j` double loop over top-level blocks (server.ts:415-420). -/
def countDups : List BlkBlock → JSMap String Nat → JSMap String Nat
  | [], m => m
  | b :: rest, m => countDups rest (countDupsInner b rest m)

/-- `processFile` (server.ts:399-497).  The `if (!blkFile) return` guard
(line 400) is dropped: the only caller passes the non-null parse result.
A `TypeError` thrown by `cleanupBlkBlock` (which runs before any state
mutation) surfaces as `Except.error`. -/
def processFile (fsPath : String) (blkFile : BlkBlock) (st : ServerState) :
    Except String (ServerState × BlkBlock) :=
  match cleanupBlkBlock blkFile 0 with
  | .error e => .error e
  | .ok cleaned =>
  let st := { st with
    completionCacheInvalid := true
    completion := mapDelete st.completion fsPath
    usagesInvalid := true
    extendsInFiles := mapDelete st.extendsInFiles fsPath
    entitiesInScenes := mapDelete st.entitiesInScenes fsPath
    templatesInFiles := mapDelete st.templatesInFiles fsPath }
  let templatesInFile := countDups cleaned.blocks []
  let processed := cleaned.blocks.map processBlock
  let blocks2 := processed.map Prod.fst
  let items := (processed.map Prod.snd).flatten
  let extendsInFile := blocks2.foldl (fun m b => countExtendsParams b.params m) []
  let entitiesInScene := blocks2.foldl (fun m b => countEntityTemplates b m) []
  let doc := BlkBlock.mk cleaned.name cleaned.location blocks2 cleaned.params
    cleaned.includes cleaned.comments cleaned.emptyLines
  let st := { st with
    completion := if 0 < items.length then mapSet st.completion fsPath items else st.completion
    extendsInFiles :=
      if 0 < extendsInFile.length then mapSet st.extendsInFiles fsPath extendsInFile
      else st.extendsInFiles
    entitiesInScenes :=
      if 0 < entitiesInScene.length then mapSet st.entitiesInScenes fsPath entitiesInScene
      else st.entitiesInScenes
    templatesInFiles :=
      if 0 < templatesInFile.length then mapSet st.templatesInFiles fsPath templatesInFile
      else st.templatesInFiles }
  .ok (st, doc)

/-! ## Query engine: template lookup and positional lookup -/

/-- `TemplatePos` (server.ts:630-635). -/
structure TemplatePos where
  name : String
  filePath : String
  location : BlkLocation
  indent : Option BlkLocation := none
deriving DecidableEq, Repr

/-- `getTemplates` (server.ts:637-644): scans every indexed document's
top-level blocks for an exact name match. -/
def getTemplates (files : JSMap String (Option BlkBlock)) (name : String) : List TemplatePos :=
  files.foldl
    (fun res p =>
      res ++
        (((match p.2 with | some f => f.blocks | none => []).filter
            (fun (b : BlkBlock) => b.name = name)).map
          (fun (b : BlkBlock) => { name := b.name, filePath := p.1, location := b.location })))
    []

/-- The result record of `getParamAt` (server.ts:656); the source field
`include` is called `incl` here (`include` is a Lean keyword). -/
structure GetParamRes where
  res : Option BlkParam
  incl : Option BlkIncludes
  depth : Nat
  parent : Option BlkBlock

mutual
/-- `getParamAt` (server.ts:656-672): descends into the first block whose span
contains the position, else checks params, else own includes. -/
def getParamAt : BlkBlock → Position → Nat → Option BlkBlock → Option GetParamRes
  | .mk _ _ blocks params includes _ _, position, depth, parent =>
    match getParamAtBlocks blocks position depth parent with
    | some r => r
    | none =>
      match params.find? (fun p => isPosInLocation p.location position) with
      | some p => some { res := some p, incl := none, depth := depth, parent := parent }
      | none =>
        match includes.find? (fun i => isPosInLocation i.location position) with
        | some i => some { res := none, incl := some i, depth := depth, parent := parent }
        | none => none

/-- The `for (const blk of blkFile.blocks)` loop of `getParamAt`
(server.ts:657-663): an unconditional `return` on span containment (`++depth`),
else that child's includes. -/
def getParamAtBlocks : List BlkBlock → Position → Nat → Option BlkBlock →
    Option (Option GetParamRes)
  | [], _, _, _ => none
  | blk :: rest, position, depth, parent =>
    if isPosInLocation blk.location position then
      some (getParamAt blk position (depth + 1) (some blk))
    else
      match blk.includes.find? (fun i => isPosInLocation i.location position) with
      | some i => some (some { res := none, incl := some i, depth := depth, parent := parent })
      | none => getParamAtBlocks rest position depth parent
end

/-- `getRootBlock` (server.ts:674-679). -/
def getRootBlock (blkFile : BlkBlock) (loc : BlkLocation) : Option BlkBlock :=
  blkFile.blocks.find? (fun blk =>
    BlkPosition.less blk.location.start loc.start &&
      BlkPosition.less loc.stop blk.location.stop)

/-- The result record of `onDefinition` (server.ts:681); the source field
`include` is called `incl` here. -/
structure OnDefRes where
  res : List TemplatePos
  name : Option String := none
  incl : Option String := none
  error : Option String := none
deriving DecidableEq, Repr

/-- The `while (parts.length > 0)` pop loop of `onDefinition`
(server.ts:720-728), walking segments backward from the param's end:
subtract the popped segment's length, break when the remaining offset is
`≤ 0`, else subtract one more for the `+` separator.  The argument list is
`parts` reversed (`Array.pop` takes from the end); `none` means the loop
exhausted without a break. -/
def popSegments : List String → Int → Option String
  | [], _ => none
  | last :: rest, offset =>
    if offset - jsLen last ≤ 0 then some last
    else popSegments rest (offset - jsLen last - 1)

/-- Lines 745-752 of `onDefinition`: the `param.include` fall-through. -/
def onDefIncludeTail (findWS : String → List String) (pr : GetParamRes) : OnDefRes :=
  match pr.incl with
  | some i =>
    { res := (findWS i.value).map
        (fun it => { name := i.value, filePath := it, location := BlkLocation.create })
      incl := some i.value }
  | none => { res := [] }

/-- Lines 713-744 of `onDefinition`: the `_extends`/value branch with the
backward segment walk, falling through to the include tail. -/
def onDefExtendsBranch (findWS : String → List String)
    (files : JSMap String (Option BlkBlock)) (r : BlkParam) (pr : GetParamRes)
    (position : Position) (onlyExtends : Bool) : OnDefRes :=
  if 0 < jsLen r._value ∧ (¬onlyExtends ∨ (r._name = extendsField ∧ r._type = "t")) then
    let startOffset : Int :=
      (jsLen r._name + jsLen r._type + jsLen r._value) -
        (r.location.stop.column - 1 - position.character)
    let name := removeQuotes r._value
    if startOffset > jsLen r._name then
      let name :=
        if jsIndexOf name '+' > 0 then
          match popSegments (jsSplit r._value '+').reverse
              (r.location.stop.column - 1 - position.character) with
          | some last => removeQuotes last
          | none => name
        else name
      let tres := getTemplates files name
      if 0 < tres.length then { res := tres, name := some name }
      else { res := [], error := some ("#undefined template '" ++ name ++ "'") }
    else if ¬onlyExtends then
      let name := r._name
      let nameRes := getTemplates files name
      if 0 < nameRes.length then { res := nameRes, name := some r._name }
      else { res := [], error := some ("#undefined template '" ++ name ++ "'") }
    else { res := [], error := some ("#undefined template '" ++ name ++ "'") }
  else onDefIncludeTail findWS pr

/-- `onDefinition` (server.ts:681-753).  `findWS` abstracts
`findWSFile(·, dirname(URI.parse(uri).fsPath))` (server.ts:755-765), whose
`findFile` collaborator is filesystem-bound; every claim checked here is
independent of it. -/
def onDefinition (findWS : String → List String) (files : JSMap String (Option BlkBlock))
    (blkFile : BlkBlock) (position : Position) (onlyExtends : Bool) : OnDefRes :=
  match getParamAt blkFile position 0 none with
  | none => { res := [] }
  | some pr =>
    match pr.res with
    | some r =>
      if pr.depth = 0 ∧ r._name = importField ∧ r._type = "t" ∧ 0 < jsLen r._value then
        let inc := removeQuotes r._value
        { res := (findWS inc).map
            (fun it => { name := inc, filePath := it, location := BlkLocation.create })
          incl := some inc }
      else if r._name = importSceneField ∧ r._type = "t" ∧
          pr.parent.map BlkBlock.name = some importField then
        let inc := removeQuotes r._value
        { res := (findWS inc).map
            (fun it => { name := inc, filePath := it, location := BlkLocation.create })
          incl := some inc }
      else if pr.depth = 1 ∧ r._name = overrideField ∧ r._type = "b" then
        match getRootBlock blkFile r.location with
        | some root =>
          let tres := getTemplates files root.name
          if 0 < tres.length then { res := tres, name := some root.name }
          else onDefExtendsBranch findWS files r pr position onlyExtends
        | none => onDefExtendsBranch findWS files r pr position onlyExtends
      else onDefExtendsBranch findWS files r pr position onlyExtends
    | none => onDefIncludeTail findWS pr

/-! ## Diagnostics engine (validateFile, server.ts:500-556) -/

inductive DiagnosticSeverity where
  | error
  | warning
  | information
  | hint
deriving DecidableEq, Repr

structure Diagnostic where
  message : String
  range : Range
  severity : DiagnosticSeverity
deriving DecidableEq, Repr

/-- The `Unknown template` pushes for one `_template` value (server.ts:511-517). -/
def unknownTemplateDiags (files : JSMap String (Option BlkBlock)) :
    List String → BlkLocation → List Diagnostic
  | [], _ => []
  | partName :: rest, loc =>
    (if (getTemplates files partName).length = 0 then
      [{ message := "Unknown template '" ++ partName ++ "'"
         range := BlkLocation.toRange loc, severity := .error }]
    else []) ++ unknownTemplateDiags files rest loc

/-- The `Template duplicate` pushes with the `partsMap` seen-set
(server.ts:518-527). -/
def dupTemplateDiags : List String → BlkLocation → List String → List Diagnostic
  | [], _, _ => []
  | partName :: rest, loc, seen =>
    (if partName ∈ seen then
      [{ message := "Template duplicate '" ++ partName ++ "'"
         range := BlkLocation.toRange loc, severity := .error }]
    else []) ++ dupTemplateDiags rest loc (partName :: seen)

/-- Diagnostics for one param of an `entity` block (server.ts:508-528). -/
def entityParamDiags (files : JSMap String (Option BlkBlock)) (p : BlkParam) :
    List Diagnostic :=
  if p._name = templateField ∧ p._type = "t" ∧ 0 < jsLen p._value then
    let parts := splitAndRemoveQuotes p._value
    unknownTemplateDiags files parts p.location ++ dupTemplateDiags parts p.location []
  else []

/-- Diagnostics for one param of the `_extends` pass (server.ts:531-554). -/
def extendsParamDiags (files : JSMap String (Option BlkBlock)) (blkName : String)
    (p : BlkParam) : List Diagnostic :=
  if p._name = extendsField ∧ p._type = "t" ∧ 0 < jsLen p._value then
    let parentName := removeQuotes p._value
    (if parentName = blkName then
      [{ message := "Recursively dependency '" ++ parentName ++ "'"
         range := BlkLocation.toRange p.location, severity := .error }]
    else []) ++
      (let parents := getTemplates files parentName
       if parents.length = 0 then
         [{ message := "Unknown parent template '" ++ parentName ++ "'"
            range := BlkLocation.toRange p.location, severity := .error }]
       else if 1 < parents.length then
         [{ message := "Multiple templates '" ++ parentName ++ "'"
            range := BlkLocation.toRange p.location, severity := .hint }]
       else [])
  else []

/-- One top-level block's diagnostics (server.ts:506-555): the `entity`
`_template` pass, then the `_extends` pass over the same block's params. -/
def validateBlock (files : JSMap String (Option BlkBlock)) (blk : BlkBlock) :
    List Diagnostic :=
  (if blk.name = entityWithTemplateName then
    (blk.params.map (entityParamDiags files)).flatten
  else []) ++ (blk.params.map (extendsParamDiags files blk.name)).flatten

/-- `validateFile` (server.ts:500-556): appends each top-level block's
diagnostics to the given accumulator; a `null` document is left untouched.
The console log and the `?? []` null-guards (the normalizer already
materialised the lists) carry no state. -/
def validateFile (files : JSMap String (Option BlkBlock)) (_fsPath : String)
    (blkFile : Option BlkBlock) (diagnostics : List Diagnostic) : List Diagnostic :=
  match blkFile with
  | none => diagnostics
  | some f => diagnostics ++ (f.blocks.map (validateBlock files)).flatten

/-! ## Scan pipeline (scanFile / getOrScanFile / rescanOpenFiles) -/

/-- The BOM strip (server.ts:577-578). -/
def stripBOM (s : String) : String :=
  if s.data.head? = some (Char.ofNat 0xFEFF) then String.mk (s.data.drop 1) else s

/-- The `!workspaceFsPath || workspaces.has(workspaceFsPath)` guard
(server.ts:582 and :602). -/
def wsGuard (workspaceFsPath : Option String) (workspaces : List String) : Bool :=
  match workspaceFsPath with
  | none => true
  | some w => w ∈ workspaces

/-- `scanFile` (server.ts:567-612), with I/O abstracted: `disk` plays
`readFile` (`none` = read error, which logs and resolves `null` with no state
change), `parse` plays the external blk parser (server.ts:5, out of scope as a
grammar).  The open-editor buffer `fileContents` takes priority over disk
(server.ts:607-610).  On success the processed document is stored; on a
parse/process throw, `null` is stored unless `lazy`.  Diagnostics are sent to
the client, never stored, and are omitted. -/
def scanFile (parse : String → Except BlkLocation BlkBlock) (disk : String → Option String)
    (fsPath : String) (workspaceFsPath : Option String) (_diagnostic : Bool) (lazy : Bool)
    (st : ServerState) : ServerState × Option BlkBlock :=
  match (match mapGet? st.fileContents fsPath with
    | some c => some c
    | none => disk fsPath) with
  | none => (st, none)
  | some data =>
    match parse (stripBOM data) with
    | .ok blk =>
      match processFile fsPath blk st with
      | .ok (st2, blk2) =>
        (if wsGuard workspaceFsPath st2.workspaces then
          { st2 with files := mapSet st2.files fsPath (some blk2) }
        else st2, some blk2)
      | .error _ =>
        (if ¬lazy ∧ wsGuard workspaceFsPath st.workspaces then
          { st with files := mapSet st.files fsPath none }
        else st, none)
    | .error _ =>
      (if ¬lazy ∧ wsGuard workspaceFsPath st.workspaces then
        { st with files := mapSet st.files fsPath none }
      else st, none)

/-- `getOrScanFile` (server.ts:363-365): the cached entry (including a cached
`null`) short-circuits the scan. -/
def getOrScanFile (parse : String → Except BlkLocation BlkBlock)
    (disk : String → Option String) (filePath : String) (diagnostic : Bool)
    (st : ServerState) : ServerState × Option BlkBlock :=
  match mapGet? st.files filePath with
  | some doc => (st, doc)
  | none => scanFile parse disk filePath none diagnostic false st

/-- `rescanOpenFiles` (server.ts:313-318). -/
def rescanOpenFiles (parse : String → Except BlkLocation BlkBlock)
    (disk : String → Option String) (st : ServerState) : ServerState :=
  let st2 := st.openFiles.foldl (fun s f => (scanFile parse disk f none true false s).1) st
  { st2 with usagesInvalid := true }

/-- `isFileInWorkspaces` (server.ts:334-339).  Translated verbatim: the source
tests `ws.startsWith(fsPath)` — whether a workspace root string starts with
the file path. -/
def isFileInWorkspaces (st : ServerState) (fsPath : String) : Bool :=
  st.workspaces.any (fun ws => jsStartsWith ws fsPath)

/-- `removeWorkspaceUri` (server.ts:341-359); the URI→fsPath conversion is
elided (the argument is already the fsPath). -/
def removeWorkspaceUri (parse : String → Except BlkLocation BlkBlock)
    (disk : String → Option String) (fsPath : String) (st : ServerState) : ServerState :=
  let st := { st with workspaces := st.workspaces.filter (fun w => ¬w = fsPath) }
  let st :=
    if st.workspaces.length = 0 then { st with files := [] }
    else
      (st.openFiles.filter (fun f => isFileInWorkspaces st f)).foldl
        (fun s f => purgeFile f s) st
  rescanOpenFiles parse disk st

/-! ## Lazy usages rebuild (connection.onCodeLens, server.ts:206-221) -/

/-- One `usagesMap.set(key, (has ? get : 0) + value)` step
(server.ts:212, 216, 220). -/
def addUsage (m : JSMap String Nat) (key : String) (value : Nat) : JSMap String Nat :=
  mapSet m key ((if mapHas m key then mapGetD m key 0 else 0) + value)

/-- The inner `for (const [key, value] of fileMap)` loop, entry by entry. -/
def foldFileMap (acc : JSMap String Nat) : JSMap String Nat → JSMap String Nat
  | [] => acc
  | (k, v) :: rest => foldFileMap (addUsage acc k v) rest

/-- The outer `for (const fileMap of ...)` loop over one per-file collection. -/
def foldFiles (acc : JSMap String Nat) : JSMap String (JSMap String Nat) → JSMap String Nat
  | [] => acc
  | (_, fm) :: rest => foldFiles (foldFileMap acc fm) rest

/-- The rebuild body: clear `usagesMap`, then fold the extends, scene-entity
and duplicate-template per-file collections into it in that order. -/
def rebuildUsagesMap (st : ServerState) : JSMap String Nat :=
  foldFiles (foldFiles (foldFiles [] st.extendsInFiles) st.entitiesInScenes) st.templatesInFiles

/-- The `if (usagesInvalid)` block of `connection.onCodeLens`. -/
def refreshUsages (st : ServerState) : ServerState :=
  if st.usagesInvalid then
    { st with usagesMap := rebuildUsagesMap st, usagesInvalid := false }
  else st

/-- Spec-side notion: a key's total stored value, summed over every entry of
the association list (the single stored value when keys are unique, as in a
JS map). -/
def lookupSum : JSMap String Nat → String → Nat
  | [], _ => 0
  | (k, v) :: rest, key => (if k = key then v else 0) + lookupSum rest key

/-- Spec-side notion: a key's total over all files of one per-file collection. -/
def outerLookupSum : JSMap String (JSMap String Nat) → String → Nat
  | [], _ => 0
  | (_, fm) :: rest, key => lookupSum fm key + outerLookupSum rest key

/-- Spec-side notion: one file's total for a key within one per-file
collection. -/
def fileRefSum : JSMap String (JSMap String Nat) → String → String → Nat
  | [], _, _ => 0
  | (f, fm) :: rest, file, key =>
    (if f = file then lookupSum fm key else 0) + fileRefSum rest file key

/-- A file's total reference count for a template name over the three
per-file collections (the count `processFile` derives for that file). -/
def fileRefs (st : ServerState) (file key : String) : Nat :=
  fileRefSum st.extendsInFiles file key + fileRefSum st.entitiesInScenes file key +
    fileRefSum st.templatesInFiles file key

/-! ## Derived result extractors -/

/-- The stored/returned document of a scan as a function of the effective
content only (used to state scan determinism). -/
def scanDocResult (parse : String → Except BlkLocation BlkBlock) (fsPath : String) :
    Option String → Option BlkBlock
  | none => none
  | some data =>
    match parse (stripBOM data) with
    | .ok blk =>
      match processFile fsPath blk ServerState.initial with
      | .ok (_, d) => some d
      | .error _ => none
    | .error _ => none

/-- The `templatesInFiles` collection after normalizing one file from the
initial state (`[]` when normalization faults). -/
def processedTemplatesMap (fsPath : String) (doc : BlkBlock) :
    JSMap String (JSMap String Nat) :=
  match processFile fsPath doc ServerState.initial with
  | .ok (st2, _) => st2.templatesInFiles
  | .error _ => []

/-! ## Concrete fixtures -/

def mkLoc (l1 c1 l2 c2 : Int) : BlkLocation :=
  { start := { offset := 0, line := l1, column := c1 }
    stop := { offset := 0, line := l2, column := c2 } }

/-- A top-level block with no params, children or includes. -/
def emptyTopBlock (name : String) (loc : BlkLocation) : BlkBlock :=
  .mk name loc [] [] [] none none

/-- C1 fixture: file `/ws/a.blk` with templates `Alpha`, `Beta`, `Gamma` and a
block `X { _extends:t="Alpha+Beta+Gamma" }`.  The param occupies line 5,
columns 3-31 (`_extends` 3-10, `:` 11, `t` 12, `=` 13, value 14-31 with
`Beta` at columns 21-24), so its end column is 32. -/
def alphaBlk : BlkBlock := emptyTopBlock "Alpha" (mkLoc 1 1 1 30)

def betaBlk : BlkBlock := emptyTopBlock "Beta" (mkLoc 2 1 2 30)

def gammaBlk : BlkBlock := emptyTopBlock "Gamma" (mkLoc 3 1 3 30)

def extParam1 : BlkParam :=
  { indent := mkLoc 5 1 5 3, location := mkLoc 5 3 5 32, value := none
    _name := "_extends", _type := "t", _value := "\"Alpha+Beta+Gamma\"" }

def xBlk : BlkBlock := .mk "X" (mkLoc 4 1 6 2) [] [extParam1] [] none none

def doc1 : BlkBlock := .mk "" (mkLoc 1 1 7 1) [alphaBlk, betaBlk, gammaBlk, xBlk] [] [] none none

def files1 : JSMap String (Option BlkBlock) := [("/ws/a.blk", some doc1)]

/-- C4 fixture: file `/ws/b.blk` with one block `Foo { _extends:t="Bar" }`
and no block named `Bar` anywhere.  The param occupies line 2, columns 3-18
(value `"Bar"` at columns 14-18), end column 19. -/
def extParam4 : BlkParam :=
  { indent := mkLoc 2 1 2 3, location := mkLoc 2 3 2 19, value := none
    _name := "_extends", _type := "t", _value := "\"Bar\"" }

def fooBlk4 : BlkBlock := .mk "Foo" (mkLoc 1 1 3 2) [] [extParam4] [] none none

def doc4 : BlkBlock := .mk "" (mkLoc 1 1 4 1) [fooBlk4] [] [] none none

def files4 : JSMap String (Option BlkBlock) := [("/ws/b.blk", some doc4)]

/-- C2 fixture: a raw (freshly parsed) file with one block `P` containing a
`_group` child that holds one param `a:i=1` and one nested block `b:i`. -/
def rawParamA : BlkParam :=
  { indent := mkLoc 3 1 3 5, location := mkLoc 3 5 3 10, value := some ["a", "i", "1"] }

def bChild : BlkBlock := .mk "b:i" (mkLoc 4 5 4 9) [] [] [] none none

def grpBlk : BlkBlock := .mk "_group" (mkLoc 2 3 5 4) [bChild] [rawParamA] [] none none

def pBlk : BlkBlock := .mk "P" (mkLoc 1 1 6 2) [grpBlk] [] [] none none

def doc2 : BlkBlock := .mk "" (mkLoc 1 1 7 1) [pBlk] [] [] none none

/-- The document produced by normalizing the C2 fixture. -/
def c2out : BlkBlock :=
  match processFile "/ws/c.blk" doc2 ServerState.initial with
  | .ok (_, d) => d
  | .error _ => doc2

/-- The block `P` of the normalized C2 document. -/
def c2parent : BlkBlock := c2out.blocks.getD 0 doc2

/-- C3 fixture: a raw file with one block `T1 { a:i=1 }`. -/
def rawParamT : BlkParam :=
  { indent := mkLoc 2 1 2 3, location := mkLoc 2 3 2 9, value := some ["a", "i", "1"] }

def t1Blk : BlkBlock := .mk "T1" (mkLoc 1 1 3 2) [] [rawParamT] [] none none

def doc3 : BlkBlock := .mk "" (mkLoc 1 1 4 1) [t1Blk] [] [] none none

/-- Normalize the C3 fixture, then apply the normalization pass a second time
to its own output (the double application claim C3 is about). -/
def processTwice : Except String (ServerState × BlkBlock) :=
  match processFile "/ws/f.blk" doc3 ServerState.initial with
  | .ok (st1, d1) => processFile "/ws/f.blk" d1 st1
  | .error e => .error e

/-- The C3 fixture in its normalized form, written out explicitly: the first
pass rewrote `value: ["a","i","1"]` into `_name`/`_type`/`_value` and deleted
`value`. -/
def cleanedParamT : BlkParam :=
  { indent := mkLoc 2 1 2 3, location := mkLoc 2 3 2 9, value := none
    _name := "a", _type := "i", _value := "1" }

def t1BlkN : BlkBlock := .mk "T1" (mkLoc 1 1 3 2) [] [cleanedParamT] [] none none

def doc3n : BlkBlock := .mk "" (mkLoc 1 1 4 1) [t1BlkN] [] [] none none

/-- C6 fixture: file `/ws/d.blk` whose two top-level blocks share one name. -/
def twoBlocksDoc (n : String) : BlkBlock :=
  .mk "" (mkLoc 1 1 5 1)
    [emptyTopBlock n (mkLoc 1 1 2 2), emptyTopBlock n (mkLoc 3 1 4 2)] [] [] none none

def twoBlocksFiles (n : String) : JSMap String (Option BlkBlock) :=
  [("/ws/d.blk", some (twoBlocksDoc n))]

/-- C7 fixture: file `/ws/e.blk` with one block `X { _extends:t="X" }`. -/
def extParam7 : BlkParam :=
  { indent := mkLoc 2 1 2 3, location := mkLoc 2 3 2 17, value := none
    _name := "_extends", _type := "t", _value := "\"X\"" }

def xBlk7 : BlkBlock := .mk "X" (mkLoc 1 1 3 2) [] [extParam7] [] none none

def doc7 : BlkBlock := .mk "" (mkLoc 1 1 4 1) [xBlk7] [] [] none none

def files7 : JSMap String (Option BlkBlock) := [("/ws/e.blk", some doc7)]

/-- C5 witness fixture: file `F1` holds 2 extends-references to `T`; file `F2`
holds 1 extends-reference and 2 scene-entity references to `T`. -/
def stC5 : ServerState :=
  { ServerState.initial with
    usagesInvalid := true
    extendsInFiles := [("F1", [("T", 2)]), ("F2", [("T", 1)])]
    entitiesInScenes := [("F2", [("T", 2)])]
    templatesInFiles := [] }

/-- C8 witness fixture. -/
def stC8 : ServerState :=
  { ServerState.initial with
    files := [("/a", none), ("/b", some doc4)]
    fileContents := [("/b", "x")]
    extendsInFiles := [("/a", [("T", 1)])] }

def diskC8 : String → Option String := fun p => if p = "/a" then some "T{}" else none

def parseC8 : String → Except BlkLocation BlkBlock := fun _ => .ok doc3

/-- C9 fixtures: a parse function that always fails and an empty disk. -/
def parseFail : String → Except BlkLocation BlkBlock := fun _ => .error (mkLoc 1 1 1 1)

def diskNone : String → Option String := fun _ => none

/-- C9 fixture A: roots `/a` and `/b`; `/a/f.blk` is open with a stale edit
buffer and an index entry.  Removing root `/a` should purge it (claim). -/
def stA : ServerState :=
  { ServerState.initial with
    workspaces := ["/a", "/b"]
    openFiles := ["/a/f.blk"]
    fileContents := [("/a/f.blk", "stale")]
    files := [("/a/f.blk", some doc3)] }

/-- C9 fixture B: roots `/a` and `/b/c`; `/b` is open (not under `/a`).
Removing root `/a` should leave `/b` untouched (claim). -/
def stB : ServerState :=
  { ServerState.initial with
    workspaces := ["/a", "/b/c"]
    openFiles := ["/b"]
    fileContents := [("/b", "keepme")] }

/-! # Theorems -/

/-- Claim C10: `isPosInLocation` is inclusive at both span boundaries — it
returns true exactly when `(start.line-1, start.column-1) ≤ (p.line,
p.character) ≤ (end.line-1, end.column-1)` in lexicographic order; in
particular a cursor exactly at the end column (one past the last included
character) is still inside the span for every positional query built on it
(`getParamAt`, `onDefinition`, `findAllReferencesAt`, `prepareRename`). -/
theorem isPosInLocation_iff_lex (L : BlkLocation) (p : Position) :
    isPosInLocation L p = true ↔
      lexLe (L.start.line - 1, L.start.column - 1) (p.line, p.character) ∧
        lexLe (p.line, p.character) (L.stop.line - 1, L.stop.column - 1) := by
  unfold isPosInLocation lexLe
  split_ifs with h1 h2
  · simp only [Bool.false_eq_true, false_iff]
    omega
  · simp only [Bool.false_eq_true, false_iff]
    omega
  · simp only [true_iff]
    omega

/-- Claim C1: for `_extends:t="Alpha+Beta+Gamma"` (value columns 14-31, param
end column 32), definition resolution with the cursor anywhere in the `Beta`
segment (0-based characters 20-23: first, middle and last character) resolves
exactly the template `Beta` — not `Alpha` or `Gamma` — by walking backward
from the param's end column and subtracting each `+`-segment's length plus
one for the separator.  The result holds for any include-path resolver and
for both hover (`onlyExtends`) modes. -/
theorem C1_extends_segment (findWS : String → List String) (oe : Bool) (ch : Int)
    (h1 : 20 ≤ ch) (h2 : ch ≤ 23) :
    onDefinition findWS files1 doc1 ⟨4, ch⟩ oe =
      { res := [{ name := "Beta", filePath := "/ws/a.blk", location := mkLoc 2 1 2 30 }]
        name := some "Beta" } := by
  interval_cases ch <;> cases oe <;> rfl

theorem C1_extends_segment_witness :
    onDefinition (fun _ => []) files1 doc1 ⟨4, 20⟩ false =
      { res := [{ name := "Beta", filePath := "/ws/a.blk", location := mkLoc 2 1 2 30 }]
        name := some "Beta" } :=
  C1_extends_segment (fun _ => []) false 20 (by decide) (by decide)

/-- Claim C4: with no block named `Bar` anywhere in the index, a param
`_extends:t="Bar"` yields (a) exactly the validation diagnostic
`Unknown parent template 'Bar'` (error severity, at the param's range), and
(b) an interactive definition resolution anywhere in the param's value
portion (0-based characters 13-18) returns the explicit error result
`#undefined template 'Bar'` with an empty result list — distinct from an
empty-but-successful result.  Both paths are total functions here: no
exception is thrown. -/
theorem C4_unknown_parent (findWS : String → List String) (ch : Int)
    (h1 : 13 ≤ ch) (h2 : ch ≤ 18) :
    validateFile files4 "/ws/b.blk" (some doc4) [] =
      [{ message := "Unknown parent template 'Bar'"
         range := BlkLocation.toRange (mkLoc 2 3 2 19), severity := .error }] ∧
      onDefinition findWS files4 doc4 ⟨1, ch⟩ false =
        { res := [], error := some "#undefined template 'Bar'" } := by
  refine ⟨by rfl, ?_⟩
  interval_cases ch <;> rfl

theorem C4_unknown_parent_witness :
    validateFile files4 "/ws/b.blk" (some doc4) [] =
      [{ message := "Unknown parent template 'Bar'"
         range := BlkLocation.toRange (mkLoc 2 3 2 19), severity := .error }] ∧
      onDefinition (fun _ => []) files4 doc4 ⟨1, 14⟩ false =
        { res := [], error := some "#undefined template 'Bar'" } :=
  C4_unknown_parent (fun _ => []) 14 (by decide) (by decide)

/-- Claim C2 counterexample: normalizing the `_group` fixture does add the two
synthetic params `a` and `b` to the parent, but the `_group` child is never
removed from the parent's `blocks` list (server.ts:421-474 pushes params and
leaves `blk.blocks` untouched), so the claim's "no residual `_group` child
remains queryable as a block of the parent" conjunct fails. -/
theorem C2_counterexample :
    ¬ ((c2parent.params.map (fun p => p._name) = ["a", "b"]) ∧
        ∀ b ∈ c2parent.blocks, ¬ b.name = groupBlock) := by
  intro h
  exact absurd (h.2 (c2parent.blocks.getD 0 doc2) (List.Mem.head _)) (by decide)

/-- Claim C2 (amended): normalizing a block with a `_group` child holding one
param `a:i=1` and one nested block `b:i` adds exactly the two synthetic
params `a:i` (value `1`) and `b:i` (empty value) to the parent block — names
and types obtained by splitting on `:` and trimming — and the pass succeeds;
however the `_group` child itself remains in the parent's `blocks` list. -/
theorem C2_group_flattening :
    c2parent.params.map (fun p => (p._name, p._type, p._value)) =
        [("a", "i", "1"), ("b", "i", "")] ∧
      c2parent.blocks.map BlkBlock.name = [groupBlock] ∧
      exceptOk (processFile "/ws/c.blk" doc2 ServerState.initial) = true := by
  refine ⟨by rfl, by rfl, by rfl⟩

/-- Claim C3 counterexample: normalizing the fixture `T1 { a:i=1 }` succeeds,
but applying the normalization pass a second time to its own output is not a
no-op — it faults (the first pass deleted the param's raw `value` list, and
`cleanupBlkParam` re-reads `value.length`). -/
theorem C3_counterexample :
    exceptOk (processFile "/ws/f.blk" doc3 ServerState.initial) = true ∧
      processTwice = .error typeErrorMsg ∧
      processTwice ≠ processFile "/ws/f.blk" doc3 ServerState.initial := by
  refine ⟨by rfl, by rfl, ?_⟩
  intro h
  have h2 := congrArg exceptOk h
  rw [show exceptOk processTwice = false from rfl,
    show exceptOk (processFile "/ws/f.blk" doc3 ServerState.initial) = true from rfl] at h2
  exact Bool.noConfusion h2

theorem cleanupParams_error (ps : List BlkParam) (d : Nat) (p : BlkParam)
    (hp : p ∈ ps) (hv : p.value = none) : cleanupParams ps d = .error typeErrorMsg := by
  induction ps with
  | nil => cases hp
  | cons q rest ih =>
    rcases List.mem_cons.mp hp with rfl | hmem
    · simp only [cleanupParams, cleanupBlkParam, hv]
    · cases hq : q.value with
      | none => simp only [cleanupParams, cleanupBlkParam, hq]
      | some v =>
        simp only [cleanupParams, cleanupBlkParam, hq]
        rw [ih hmem]

theorem cleanupBlkBlock_params_error (b : BlkBlock) (d : Nat) (p : BlkParam)
    (hp : p ∈ b.params) (hv : p.value = none) :
    exceptOk (cleanupBlkBlock b d) = false := by
  obtain ⟨n, loc, blocks, params, includes, c, e⟩ := b
  simp only [BlkBlock.params] at hp
  rw [cleanupBlkBlock]
  cases hb : cleanupBlocks blocks (d + 1) with
  | error e2 => rfl
  | ok blocks2 => rw [cleanupParams_error params d p hp hv]; rfl

theorem cleanupBlocks_error (bs : List BlkBlock) (d : Nat) (b : BlkBlock)
    (hb : b ∈ bs) (h : exceptOk (cleanupBlkBlock b d) = false) :
    exceptOk (cleanupBlocks bs d) = false := by
  induction bs with
  | nil => cases hb
  | cons b0 rest ih =>
    rcases List.mem_cons.mp hb with rfl | hmem
    · rw [cleanupBlocks]
      cases h0 : cleanupBlkBlock b d with
      | error e => rfl
      | ok b2 => rw [h0] at h; exact absurd h (by simp [exceptOk])
    · rw [cleanupBlocks]
      cases h0 : cleanupBlkBlock b0 d with
      | error e => rfl
      | ok b2 =>
        have := ih hmem
        cases h1 : cleanupBlocks rest d with
        | error e => rfl
        | ok bs2 => rw [h1] at this; exact absurd this (by simp [exceptOk])

/-- Claim C3 (amended): normalization is not idempotent — re-applying the
pass (`cleanupBlkBlock` inside `processFile`) to a document in normalized
form fails as soon as any top-level block still has a param: the first pass
deleted every raw `value` list (and synthetic params are created with a
`null` one), and `cleanupBlkParam` faults re-reading it.  In particular no
second application ever completes, so no duplicate synthetic params are
produced by it; normalization is applied exactly once, on fresh parses. -/
theorem C3_second_pass_fails (fsPath : String) (st : ServerState) (doc : BlkBlock)
    (b : BlkBlock) (p : BlkParam) (hb : b ∈ doc.blocks) (hp : p ∈ b.params)
    (hv : p.value = none) : exceptOk (processFile fsPath doc st) = false := by
  obtain ⟨n, loc, blocks, params, includes, c, e⟩ := doc
  simp only [BlkBlock.blocks] at hb
  have hclean : exceptOk (cleanupBlkBlock (.mk n loc blocks params includes c e) 0) = false := by
    rw [cleanupBlkBlock]
    cases hc : cleanupBlocks blocks (0 + 1) with
    | error e2 => rfl
    | ok bs2 =>
      have := cleanupBlocks_error blocks (0 + 1) b hb
        (cleanupBlkBlock_params_error b (0 + 1) p hp hv)
      rw [hc] at this
      exact absurd this (by simp [exceptOk])
  rw [processFile]
  cases hcc : cleanupBlkBlock (.mk n loc blocks params includes c e) 0 with
  | error e2 => rfl
  | ok cleaned =>
    rw [hcc] at hclean
    exact absurd hclean (by simp [exceptOk])

theorem C3_second_pass_fails_witness :
    exceptOk (processFile "/ws/f.blk" doc3n ServerState.initial) = false :=
  C3_second_pass_fails "/ws/f.blk" ServerState.initial doc3n t1BlkN cleanedParamT
    (List.Mem.head _) (List.Mem.head _) rfl

/-- Claim C6 counterexample: with exactly two top-level blocks named `Foo` in
one file and nothing else, template lookup does return 2 results, but the
diagnostics contain zero `Multiple templates`/`Template duplicate` findings,
not exactly one: `validateFile` only emits those for `_extends` params and
`entity` `_template` values, and this file has neither (the duplicate pair is
recorded in the per-file `templatesInFile` count instead, feeding the usage
code-lens). -/
theorem C6_counterexample :
    ¬ (((validateFile (twoBlocksFiles "Foo") "/ws/d.blk" (some (twoBlocksDoc "Foo")) []).filter
          (fun d => d.message = "Multiple templates 'Foo'" ∨
            d.message = "Template duplicate 'Foo'")).length = 1 ∧
        (getTemplates (twoBlocksFiles "Foo") "Foo").length = 2) := by
  decide

/-- Claim C6 (amended): given an index containing exactly two top-level blocks
with the same non-`entity` name in one file (and nothing else), template
lookup returns exactly 2 results and the validation pass emits no diagnostic
at all; the duplicate pair is instead counted once in the per-file
duplicate-template map (`templatesInFile` gets count 1 for the name). -/
theorem C6_duplicate_templates (n : String) (h : ¬n = entityWithTemplateName) :
    (getTemplates (twoBlocksFiles n) n).length = 2 ∧
      validateFile (twoBlocksFiles n) "/ws/d.blk" (some (twoBlocksDoc n)) [] = [] ∧
      processedTemplatesMap "/ws/d.blk" (twoBlocksDoc n) = [("/ws/d.blk", [(n, 1)])] := by
  refine ⟨?_, ?_, ?_⟩
  · simp [getTemplates, twoBlocksFiles, twoBlocksDoc, emptyTopBlock, BlkBlock.blocks,
      BlkBlock.name, List.filter]
  · simp [validateFile, validateBlock, twoBlocksFiles, twoBlocksDoc, emptyTopBlock,
      BlkBlock.blocks, BlkBlock.name, BlkBlock.params]
  · simp [processedTemplatesMap, processFile, cleanupBlkBlock, cleanupBlocks, cleanupParams,
      twoBlocksDoc, emptyTopBlock, countDups, countDupsInner, BlkBlock.blocks, BlkBlock.name,
      BlkBlock.params, mapSet, mapGetD, mapGet?, mapDelete, ServerState.initial, h]

theorem C6_duplicate_templates_witness :
    (getTemplates (twoBlocksFiles "Foo") "Foo").length = 2 ∧
      validateFile (twoBlocksFiles "Foo") "/ws/d.blk" (some (twoBlocksDoc "Foo")) [] = [] ∧
      processedTemplatesMap "/ws/d.blk" (twoBlocksDoc "Foo") = [("/ws/d.blk", [("Foo", 1)])] :=
  C6_duplicate_templates "Foo" (by decide)

/-- Claim C7 counterexample: the self-extension fixture `X { _extends:t="X" }`
does produce exactly one diagnostic at the param, but its message is the
source's literal `Recursively dependency 'X'` (server.ts:536) — no diagnostic
reading `Recursive dependency 'X'` is produced. -/
theorem C7_counterexample :
    (validateFile files7 "/ws/e.blk" (some doc7) []).map (fun d => d.message) =
        ["Recursively dependency 'X'"] ∧
      ¬ ∃ d ∈ validateFile files7 "/ws/e.blk" (some doc7) [],
          d.message = "Recursive dependency 'X'" := by
  decide

/-- Claim C7 (amended): for every top-level block that contains a param
`_extends` of type `t` whose (quote-stripped) value names the enclosing
block itself, the validation pass emits a diagnostic with the message
`Recursively dependency '<name>'` (sic), error severity, at the param's
range. -/
theorem C7_recursively_dependency (files : JSMap String (Option BlkBlock))
    (fsPath : String) (doc : BlkBlock) (diags : List Diagnostic)
    (b : BlkBlock) (p : BlkParam) (hb : b ∈ doc.blocks) (hp : p ∈ b.params)
    (hn : p._name = extendsField) (ht : p._type = "t") (hv : 0 < jsLen p._value)
    (hself : removeQuotes p._value = b.name) :
    ({ message := "Recursively dependency '" ++ removeQuotes p._value ++ "'"
       range := BlkLocation.toRange p.location
       severity := DiagnosticSeverity.error } : Diagnostic) ∈
      validateFile files fsPath (some doc) diags := by
  unfold validateFile
  refine List.mem_append_right _ ?_
  rw [List.mem_flatten]
  refine ⟨validateBlock files b, List.mem_map_of_mem _ hb, ?_⟩
  unfold validateBlock
  refine List.mem_append_right _ ?_
  rw [List.mem_flatten]
  refine ⟨extendsParamDiags files b.name p, List.mem_map_of_mem _ hp, ?_⟩
  unfold extendsParamDiags
  rw [if_pos ⟨hn, ht, hv⟩]
  simp [hself]

theorem C7_recursively_dependency_witness :
    ({ message := "Recursively dependency '" ++ removeQuotes extParam7._value ++ "'"
       range := BlkLocation.toRange extParam7.location
       severity := DiagnosticSeverity.error } : Diagnostic) ∈
      validateFile files7 "/ws/e.blk" (some doc7) [] :=
  C7_recursively_dependency files7 "/ws/e.blk" doc7 [] xBlk7 extParam7
    (List.Mem.head _) (List.Mem.head _) rfl rfl (by decide) (by decide)

theorem lookupSum_addUsage (m : JSMap String Nat) (k : String) (v : Nat) (q : String) :
    lookupSum (addUsage m k v) q = lookupSum m q + (if k = q then v else 0) := by
  induction m with
  | nil =>
    simp only [addUsage, mapHas, mapGet?, mapGetD, mapSet, lookupSum, Option.isSome_none,
      Bool.false_eq_true, if_false, Option.getD_none]
    split_ifs <;> omega
  | cons head rest ih =>
    obtain ⟨k1, v1⟩ := head
    by_cases h : k1 = k
    · subst h
      simp only [addUsage, mapHas, mapGet?, mapGetD, mapSet, lookupSum, if_pos rfl,
        Option.isSome_some, if_true, Option.getD_some]
      split_ifs <;> omega
    · have hstep : addUsage ((k1, v1) :: rest) k v = (k1, v1) :: addUsage rest k v := by
        simp only [addUsage, mapHas, mapGet?, mapGetD, mapSet, if_neg h]
      rw [hstep]
      simp only [lookupSum]
      rw [ih]
      omega

theorem lookupSum_foldFileMap (fm acc : JSMap String Nat) (q : String) :
    lookupSum (foldFileMap acc fm) q = lookupSum acc q + lookupSum fm q := by
  induction fm generalizing acc with
  | nil => simp [foldFileMap, lookupSum]
  | cons head rest ih =>
    obtain ⟨k, v⟩ := head
    rw [foldFileMap, ih, lookupSum_addUsage]
    simp only [lookupSum]
    omega

theorem lookupSum_foldFiles (outer : JSMap String (JSMap String Nat))
    (acc : JSMap String Nat) (q : String) :
    lookupSum (foldFiles acc outer) q = lookupSum acc q + outerLookupSum outer q := by
  induction outer generalizing acc with
  | nil => simp [foldFiles, outerLookupSum]
  | cons head rest ih =>
    obtain ⟨f, fm⟩ := head
    rw [foldFiles, ih, lookupSum_foldFileMap]
    simp only [outerLookupSum]
    omega

theorem outerLookupSum_two (outer : JSMap String (JSMap String Nat)) (F1 F2 q : String)
    (hne : F1 ≠ F2) (hkeys : ∀ p ∈ outer, p.1 = F1 ∨ p.1 = F2) :
    outerLookupSum outer q = fileRefSum outer F1 q + fileRefSum outer F2 q := by
  induction outer with
  | nil => simp [outerLookupSum, fileRefSum]
  | cons head rest ih =>
    obtain ⟨f, fm⟩ := head
    have hh := hkeys (f, fm) (List.Mem.head _)
    have ih2 := ih (fun p hp => hkeys p (List.mem_cons_of_mem _ hp))
    simp only [outerLookupSum, fileRefSum]
    rcases hh with rfl | rfl
    · rw [if_pos rfl, if_neg (fun hc => hne hc)]
      omega
    · rw [if_neg (fun hc => hne hc.symm), if_pos rfl]
      omega

/-- Claim C5: when the per-file derived maps are invalid (`usagesInvalid`),
the first usage query rebuilds `usagesMap` from scratch by summing the three
kinds of per-file maps over all indexed files; in particular when exactly the
files `F1` and `F2` carry references to a template name `T` — `N1` and `N2` of
them respectively, summed over the extends, scene-entity and
duplicate-template maps — the rebuilt map reports `N1 + N2` for `T`, and the
flag is lowered. -/
theorem C5_usage_aggregation (st : ServerState) (T F1 F2 : String) (N1 N2 : Nat)
    (hinv : st.usagesInvalid = true) (hne : F1 ≠ F2)
    (hk1 : ∀ p ∈ st.extendsInFiles, p.1 = F1 ∨ p.1 = F2)
    (hk2 : ∀ p ∈ st.entitiesInScenes, p.1 = F1 ∨ p.1 = F2)
    (hk3 : ∀ p ∈ st.templatesInFiles, p.1 = F1 ∨ p.1 = F2)
    (h1 : fileRefs st F1 T = N1) (h2 : fileRefs st F2 T = N2) :
    lookupSum (refreshUsages st).usagesMap T = N1 + N2 ∧
      (refreshUsages st).usagesInvalid = false := by
  unfold refreshUsages
  rw [if_pos hinv]
  refine ⟨?_, rfl⟩
  show lookupSum (rebuildUsagesMap st) T = N1 + N2
  unfold rebuildUsagesMap
  rw [lookupSum_foldFiles, lookupSum_foldFiles, lookupSum_foldFiles]
  rw [outerLookupSum_two st.extendsInFiles F1 F2 T hne hk1,
    outerLookupSum_two st.entitiesInScenes F1 F2 T hne hk2,
    outerLookupSum_two st.templatesInFiles F1 F2 T hne hk3]
  unfold fileRefs at h1 h2
  simp only [lookupSum]
  omega

theorem C5_usage_aggregation_witness :
    lookupSum (refreshUsages stC5).usagesMap "T" = 2 + 3 ∧
      (refreshUsages stC5).usagesInvalid = false :=
  C5_usage_aggregation stC5 "T" "F1" "F2" 2 3 rfl (by decide) (by decide) (by decide)
    (by decide) (by decide) (by decide)

theorem mapGet?_mapDelete_self [DecidableEq α] (m : JSMap α β) (k : α) :
    mapGet? (mapDelete m k) k = none := by
  induction m with
  | nil => rfl
  | cons head rest ih =>
    obtain ⟨k1, v1⟩ := head
    by_cases h : k1 = k
    · subst h
      simpa [mapDelete] using ih
    · simp [mapDelete, mapGet?, h, ih]

theorem mapGet?_mapDelete_ne [DecidableEq α] (m : JSMap α β) (k q : α) (h : ¬q = k) :
    mapGet? (mapDelete m k) q = mapGet? m q := by
  induction m with
  | nil => rfl
  | cons head rest ih =>
    obtain ⟨k1, v1⟩ := head
    by_cases h1 : k1 = k
    · subst h1
      simp [mapDelete, mapGet?, ih, show ¬k1 = q from fun hc => h hc.symm]
    · simp [mapDelete, mapGet?, h1, ih]

/-- The document component of `processFile` is a function of the file path and
the parse tree alone: the mutable index state only receives writes. -/
theorem processFile_snd (fsPath : String) (blk : BlkBlock) (st1 st2 : ServerState) :
    (match processFile fsPath blk st1 with | .ok (_, d) => some d | .error _ => none) =
      (match processFile fsPath blk st2 with | .ok (_, d) => some d | .error _ => none) := by
  unfold processFile
  cases cleanupBlkBlock blk 0 with
  | error e => rfl
  | ok cleaned => rfl

/-- The document returned by `scanFile` depends only on the parser and the
effective content (edit buffer first, then disk) — not on the rest of the
index state. -/
theorem scanFile_snd (parse : String → Except BlkLocation BlkBlock)
    (disk : String → Option String) (fsPath : String) (ws : Option String)
    (diag lazy : Bool) (st : ServerState) :
    (scanFile parse disk fsPath ws diag lazy st).2 =
      scanDocResult parse fsPath
        (match mapGet? st.fileContents fsPath with
          | some c => some c
          | none => disk fsPath) := by
  unfold scanFile scanDocResult
  cases hc : (match mapGet? st.fileContents fsPath with
    | some c => some c
    | none => disk fsPath) with
  | none => rfl
  | some data =>
    dsimp only
    cases hp : parse (stripBOM data) with
    | error e => rfl
    | ok blk =>
      dsimp only
      have h := processFile_snd fsPath blk st ServerState.initial
      cases h1 : processFile fsPath blk st with
      | ok p =>
        cases h2 : processFile fsPath blk ServerState.initial with
        | ok q =>
          rw [h1, h2] at h
          obtain ⟨sp, dp⟩ := p
          obtain ⟨sq, dq⟩ := q
          simp only [Option.some.injEq] at h
          dsimp only
          rw [h]
        | error e =>
          rw [h1, h2] at h
          simp at h
      | error e =>
        cases h2 : processFile fsPath blk ServerState.initial with
        | ok q =>
          rw [h1, h2] at h
          simp at h
        | error e2 => rfl

/-- Claim C8: after `purgeFile path`, none of the index structures — the
content cache, document map, the three per-file derived maps, or the per-file
completion map — retains an entry for `path`; both invalidation flags are
raised; every other path's entries (and the remaining state fields) are
unchanged; and a subsequent `getOrScanFile` of `path` re-derives, given
identical content (disk holding what the original scan saw), a document
identical to the original scan's. -/
theorem C8_purge_completeness (st : ServerState) (path : String) :
    (mapGet? (purgeFile path st).fileContents path = none ∧
      mapGet? (purgeFile path st).files path = none ∧
      mapGet? (purgeFile path st).extendsInFiles path = none ∧
      mapGet? (purgeFile path st).entitiesInScenes path = none ∧
      mapGet? (purgeFile path st).templatesInFiles path = none ∧
      mapGet? (purgeFile path st).completion path = none) ∧
    ((purgeFile path st).usagesInvalid = true ∧
      (purgeFile path st).completionCacheInvalid = true) ∧
    (∀ q, ¬q = path →
      mapGet? (purgeFile path st).fileContents q = mapGet? st.fileContents q ∧
      mapGet? (purgeFile path st).files q = mapGet? st.files q ∧
      mapGet? (purgeFile path st).extendsInFiles q = mapGet? st.extendsInFiles q ∧
      mapGet? (purgeFile path st).entitiesInScenes q = mapGet? st.entitiesInScenes q ∧
      mapGet? (purgeFile path st).templatesInFiles q = mapGet? st.templatesInFiles q ∧
      mapGet? (purgeFile path st).completion q = mapGet? st.completion q) ∧
    ((purgeFile path st).workspaces = st.workspaces ∧
      (purgeFile path st).openFiles = st.openFiles ∧
      (purgeFile path st).usagesMap = st.usagesMap ∧
      (purgeFile path st).completionCache = st.completionCache) ∧
    (∀ (parse : String → Except BlkLocation BlkBlock) (disk : String → Option String)
        (c : String), disk path = some c →
      (mapGet? st.fileContents path = none ∨ mapGet? st.fileContents path = some c) →
      (getOrScanFile parse disk path false (purgeFile path st)).2 =
        (scanFile parse disk path none false false st).2) := by
  refine ⟨⟨mapGet?_mapDelete_self _ _, mapGet?_mapDelete_self _ _, mapGet?_mapDelete_self _ _,
      mapGet?_mapDelete_self _ _, mapGet?_mapDelete_self _ _, mapGet?_mapDelete_self _ _⟩,
    ⟨rfl, rfl⟩, ?_, ⟨rfl, rfl, rfl, rfl⟩, ?_⟩
  · intro q hq
    exact ⟨mapGet?_mapDelete_ne _ _ _ hq, mapGet?_mapDelete_ne _ _ _ hq,
      mapGet?_mapDelete_ne _ _ _ hq, mapGet?_mapDelete_ne _ _ _ hq,
      mapGet?_mapDelete_ne _ _ _ hq, mapGet?_mapDelete_ne _ _ _ hq⟩
  · intro parse disk c hdisk hfc
    unfold getOrScanFile
    have hpf : mapGet? (purgeFile path st).files path = none := mapGet?_mapDelete_self _ _
    rw [hpf]
    dsimp only
    rw [scanFile_snd, scanFile_snd]
    have hpc : mapGet? (purgeFile path st).fileContents path = none :=
      mapGet?_mapDelete_self _ _
    rw [hpc]
    rcases hfc with hfc | hfc
    · rw [hfc]
    · rw [hfc]
      dsimp only
      rw [hdisk]

theorem C8_purge_completeness_witness :
    mapGet? (purgeFile "/a" stC8).extendsInFiles "/a" = none ∧
      mapGet? (purgeFile "/a" stC8).files "/b" = mapGet? stC8.files "/b" ∧
      (getOrScanFile parseC8 diskC8 "/a" false (purgeFile "/a" stC8)).2 =
        (scanFile parseC8 diskC8 "/a" none false false stC8).2 := by
  obtain ⟨h1, h2, h3, h4, h5⟩ := C8_purge_completeness stC8 "/a"
  exact ⟨h1.2.2.1, (h3 "/b" (by decide)).2.1,
    h5 parseC8 diskC8 "T{}" (by decide) (Or.inl (by decide))⟩

/-- Claim C9, evaluated at the failing inputs (the claim states the spec's
intent; the code diverges).  `removeWorkspaceUri` collects for purging the
open files for which `isFileInWorkspaces` is true against the *remaining*
roots, and `isFileInWorkspaces` tests `ws.startsWith(fsPath)` backwards.
Consequence (a): removing root `/a` from fixture A leaves the open file
`/a/f.blk` — which lies under the removed root — unpurged: its stale edit
buffer survives in `fileContents` (the claim requires it purged).
Consequence (b): removing root `/a` from fixture B purges the open file `/b`
even though it lies under no removed root, merely because the remaining root
`/b/c` extends its path (the claim requires it untouched). -/
theorem C9_remove_workspace_divergence :
    (removeWorkspaceUri parseFail diskNone "/a" stA).fileContents =
        [("/a/f.blk", "stale")] ∧
      (removeWorkspaceUri parseFail diskNone "/a" stB).fileContents = [] := by
  exact ⟨rfl, rfl⟩
